import Mathlib

/-!
Shallow embedding of the breakout/retest detection engine of
`pkg/analysis/breakout.go` (package `analysis`).

Modelling conventions:
* Go `float64` arithmetic is modelled by exact rational arithmetic (`ℚ`).
* The only places in the embedded fragment where IEEE-754 non-finite values
  are observable are divisions whose divisor can be zero; the comparisons of
  such quotients are modelled explicitly by `fdivLt`/`fdivGt` and by the
  zero-deviation branch of `calculateConfidence`.
* `math.Sqrt` has no exact computable counterpart on `ℚ`, so the residual
  deviation of the regression channel is passed to the channel builder as an
  explicit argument `dev`; the predicate `TechnicalAnalyzer.IsDev` states that
  `dev` is exactly the value `math.Sqrt(sumSquares/length)` the source
  computes on line 128.
* Go methods that never read their `TechnicalAnalyzer` receiver are modelled
  as plain functions (the receiver only carries the `Length` and `DevLength`
  configuration, read by `CalculateLinearRegressionChannel` wrappers and
  `DetectBreakouts`).
* The `Description` field of signals (pure `fmt.Sprintf` formatting) and the
  exchange-facing helpers (`GetKlineData`, `AnalyzeSymbol`, `FormatSignals`)
  are not modelled; no claim concerns them.
-/

attribute [local semireducible] Rat.ofScientific Rat.mul Rat.inv Rat.add Rat.sub

/-- Go float comparison `a/b < c` where the divisor may be zero: division by
zero yields `+Inf` for a positive numerator, `-Inf` for a negative one and
`NaN` for `0/0`; every comparison with `NaN` is false, `-Inf < c` is true and
`+Inf < c` is false for finite `c`.  For a nonzero divisor the quotient is
modelled exactly. -/
def fdivLt (a b c : ℚ) : Bool :=
  if b = 0 then decide (a < 0) else decide (a / b < c)

/-- Go float comparison `a/b > c` where the divisor may be zero (see
`fdivLt`): `+Inf > c` is true, `-Inf > c` and `NaN > c` are false. -/
def fdivGt (a b c : ℚ) : Bool :=
  if b = 0 then decide (0 < a) else decide (c < a / b)

/-- Kline (breakout.go lines 14-25); the `Open` field is renamed `open_`
because `open` is a Lean keyword. -/
structure Kline where
  openTime : ℤ
  open_ : ℚ
  high : ℚ
  low : ℚ
  close : ℚ
  volume : ℚ
  closeTime : ℤ
  isGreen : Bool
  isRed : Bool
deriving DecidableEq, Repr

/-- The zero value of `Kline`; Go indexing `klines[i]` is modelled as
`klines.getD i kline0` (all source accesses are in bounds). -/
def kline0 : Kline := ⟨0, 0, 0, 0, 0, 0, 0, false, false⟩

/-- LinearRegressionChannel (lines 27-36). -/
structure LinearRegressionChannel where
  upperLine : ℚ
  middleLine : ℚ
  lowerLine : ℚ
  slope : ℚ
  deviation : ℚ
  trendUp : Bool
  trendDown : Bool
deriving DecidableEq, Repr

/-- BreakoutSignal (lines 38-49), without the `Description` formatting
string.  `timestamp` holds the Unix seconds `kline.OpenTime/1000` of the
source's `time.Unix` call. -/
structure BreakoutSignal where
  symbol : String
  timestamp : ℤ
  type : String
  price : ℚ
  channelLevel : ℚ
  strength : ℕ
  confidence : ℚ
  rsi : ℚ
deriving DecidableEq, Repr

/-- BreakoutInfo (lines 51-57). -/
structure BreakoutInfo where
  breakoutType : String
  price : ℚ
  index : ℕ
  level : ℚ
deriving DecidableEq, Repr

/-- TechnicalAnalyzer configuration (lines 59-63). -/
structure TechnicalAnalyzer where
  length : ℕ
  devLength : ℚ
deriving DecidableEq, Repr

/-- NewTechnicalAnalyzer (lines 65-71): Length = 100, DevLength = 2.0. -/
def NewTechnicalAnalyzer : TechnicalAnalyzer := ⟨100, 2⟩

namespace TechnicalAnalyzer

/-- linearRegression (lines 147-167): ordinary-least-squares slope and
intercept of price against the candle index. -/
def linearRegression (data : List ℚ) : ℚ × ℚ :=
  let n : ℚ := (data.length : ℚ)
  let sumX := (data.enum.map (fun p => ((p.1 : ℚ)))).sum
  let sumY := data.sum
  let sumXY := (data.enum.map (fun p => (p.1 : ℚ) * p.2)).sum
  let sumXX := (data.enum.map (fun p => (p.1 : ℚ) * (p.1 : ℚ))).sum
  let slope := (n * sumXY - sumX * sumY) / (n * sumXX - sumX * sumX)
  let intercept := (sumY - slope * sumX) / n
  (slope, intercept)

/-- The sum of squared residuals accumulated on lines 122-127. -/
def residSumSq (data : List ℚ) (slope intercept : ℚ) : ℚ :=
  (data.enum.map (fun p => (p.2 - (intercept + slope * (p.1 : ℚ))) ^ 2)).sum

/-- `dev` is exactly the value `math.Sqrt(dev / float64(length))` computed on
line 128 over the last `length` prices. -/
def IsDev (prices : List ℚ) (length : ℕ) (dev : ℚ) : Prop :=
  0 ≤ dev ∧
    dev ^ 2 =
      residSumSq (prices.drop (prices.length - length))
        (linearRegression (prices.drop (prices.length - length))).1
        (linearRegression (prices.drop (prices.length - length))).2 / (length : ℚ)

/-- CalculateLinearRegressionChannel (lines 110-145); `dev` is the square
root computed on line 128, passed explicitly (see the module docstring). -/
def CalculateLinearRegressionChannel (ta : TechnicalAnalyzer) (prices : List ℚ)
    (length : ℕ) (dev : ℚ) : Option LinearRegressionChannel :=
  if prices.length < length then none
  else
    let data := prices.drop (prices.length - length)
    let si := linearRegression data
    let currentX : ℚ := (length : ℚ) - 1
    let currentMiddle := si.2 + si.1 * currentX
    let upperLine := currentMiddle + dev * ta.devLength
    let lowerLine := currentMiddle - dev * ta.devLength
    some ⟨upperLine, currentMiddle, lowerLine, si.1, dev,
      decide (0 < si.1), decide (si.1 < 0)⟩

/-- The last `period+1` prices selected on line 626. -/
def rsiData (prices : List ℚ) (period : ℕ) : List ℚ :=
  prices.drop (prices.length - (period + 1))

/-- The consecutive price changes `data[i] - data[i-1]` of lines 630-640. -/
def rsiChanges (prices : List ℚ) (period : ℕ) : List ℚ :=
  ((rsiData prices period).zip (rsiData prices period).tail).map (fun p => p.2 - p.1)

/-- CalculateRSI (lines 619-654). -/
def CalculateRSI (prices : List ℚ) (period : ℕ) : ℚ :=
  if prices.length < period + 1 then 50
  else
    let changes := rsiChanges prices period
    let gains := changes.map (fun change => if 0 < change then change else 0)
    let losses := changes.map (fun change => if 0 < change then 0 else -change)
    let avgGain := gains.sum / (gains.length : ℚ)
    let avgLoss := losses.sum / (losses.length : ℚ)
    if avgLoss = 0 then 100
    else
      let rs := avgGain / avgLoss
      100 - 100 / (1 + rs)

/-- RSIFilter (lines 656-670). -/
def RSIFilter (rsi : ℚ) (signalType : String) : Bool :=
  if signalType = "UP_BREAKOUT" ∨ signalType = "RETEST_SUCCESS_UP" then
    decide (30 ≤ rsi ∧ rsi ≤ 80)
  else if signalType = "DOWN_BREAKOUT" ∨ signalType = "RETEST_SUCCESS_DOWN" then
    decide (20 ≤ rsi ∧ rsi ≤ 70)
  else true

/-- calculateSupport (lines 571-594): count of lookback candles that
respected the level. -/
def calculateSupport (klines : List Kline) (currentIndex : ℕ)
    (level : ℚ) (isSupport : Bool) (lookback : ℕ) : ℕ :=
  let start := currentIndex - lookback
  (List.range' start (currentIndex - start)).countP (fun i =>
    if isSupport then decide (level ≤ (klines.getD i kline0).low)
    else decide ((klines.getD i kline0).high ≤ level))

/-- calculateRetestStrength (lines 542-569). -/
def calculateRetestStrength (klines : List Kline) (currentIndex : ℕ)
    (level : ℚ) (isSupport : Bool) (lookback : ℕ) : ℕ :=
  let start := currentIndex - lookback
  let tolerance := level * 0.005
  (List.range' start (currentIndex - start)).countP (fun i =>
    if isSupport then
      decide ((klines.getD i kline0).low ≤ level + tolerance ∧
        level < (klines.getD i kline0).close)
    else
      decide (level - tolerance ≤ (klines.getD i kline0).high ∧
        (klines.getD i kline0).close < level))

/-- calculateConfidence (lines 596-617).  When `deviation = 0` the Go
division `distance/deviation` yields `+Inf` for `distance > 0`, which the
clamp on lines 606-608 sends to `1.0`; that case is modelled exactly.  For
`distance ≤ 0` with `deviation = 0` the Go quotient would be `NaN` or
`-Inf`; both call sites pass `distance > 0.1*deviation`, so with
`deviation = 0` those cases are unreachable, and they are modelled as `0`. -/
def calculateConfidence (strength : ℕ) (distance deviation : ℚ) : ℚ :=
  let strengthConfidence0 := (strength : ℚ) / 10
  let strengthConfidence := if 1 < strengthConfidence0 then 1 else strengthConfidence0
  let distanceConfidence0 : ℚ :=
    if deviation = 0 then (if 0 < distance then 1 else 0) else distance / deviation
  let distanceConfidence := if 1 < distanceConfidence0 then 1 else distanceConfidence0
  let confidence := (strengthConfidence + distanceConfidence) / 2
  if 1 < confidence then 1 else confidence

/-- findRecentBreakout (lines 505-540): scan indices `currentIndex-1` down to
`max(currentIndex-lookback, 0)` for the most recent margin-qualifying
close. -/
def findRecentBreakout (klines : List Kline) (currentIndex : ℕ)
    (channel : LinearRegressionChannel) (lookback : ℕ) : Option BreakoutInfo :=
  let start := currentIndex - lookback
  ((List.range' start (currentIndex - start)).reverse).findSome? (fun i =>
    if channel.upperLine + channel.deviation * 0.1 < (klines.getD i kline0).close then
      some ⟨"UP", (klines.getD i kline0).close, i, channel.upperLine⟩
    else if (klines.getD i kline0).close < channel.lowerLine - channel.deviation * 0.1 then
      some ⟨"DOWN", (klines.getD i kline0).close, i, channel.lowerLine⟩
    else none)

/-- checkBreakout (lines 237-325). -/
def checkBreakout (kline : Kline) (channel : LinearRegressionChannel)
    (symbol : String) (index : ℕ) (klines : List Kline) : Option BreakoutSignal :=
  let minBreakoutThreshold := channel.deviation * 0.1
  if kline.isGreen ∧ channel.upperLine + minBreakoutThreshold < kline.close then
    let volumeConfirmed : Bool :=
      if 0 < index then decide ((klines.getD (index - 1) kline0).volume * 1.1 < kline.volume)
      else true
    let strength := calculateSupport klines index channel.upperLine false 10
    let confidence :=
      calculateConfidence strength (kline.close - channel.upperLine) channel.deviation
    let confidence := if volumeConfirmed then min (confidence * 1.1) 1 else confidence
    let candleBody := |kline.close - kline.open_|
    let candleRange := kline.high - kline.low
    let confidence :=
      if 0 < candleRange ∧ 0.7 < candleBody / candleRange then min (confidence * 1.05) 1
      else confidence
    some ⟨symbol, kline.openTime / 1000, "UP_BREAKOUT", kline.close, channel.upperLine,
      strength, confidence, 0⟩
  else if kline.isRed ∧ kline.close < channel.lowerLine - minBreakoutThreshold then
    let volumeConfirmed : Bool :=
      if 0 < index then decide ((klines.getD (index - 1) kline0).volume * 1.1 < kline.volume)
      else true
    let strength := calculateSupport klines index channel.lowerLine true 10
    let confidence :=
      calculateConfidence strength (channel.lowerLine - kline.close) channel.deviation
    let confidence := if volumeConfirmed then min (confidence * 1.1) 1 else confidence
    let candleBody := |kline.close - kline.open_|
    let candleRange := kline.high - kline.low
    let confidence :=
      if 0 < candleRange ∧ 0.7 < candleBody / candleRange then min (confidence * 1.05) 1
      else confidence
    some ⟨symbol, kline.openTime / 1000, "DOWN_BREAKOUT", kline.close, channel.lowerLine,
      strength, confidence, 0⟩
  else none

/-- checkRetest (lines 327-432).  The bounce/rejection ratios are Go float
divisions with a possibly-zero divisor; their comparisons against 0.6 and 0.8
are modelled by `fdivLt`/`fdivGt` (NaN and ±Inf comparison semantics). -/
def checkRetest (kline : Kline) (channel : LinearRegressionChannel)
    (symbol : String) (index : ℕ) (klines : List Kline) : Option BreakoutSignal :=
  let tolerance := channel.deviation * 0.15
  match findRecentBreakout klines index channel 5 with
  | none => none
  | some breakoutInfo =>
    if breakoutInfo.breakoutType = "UP" then
      if kline.low ≤ channel.upperLine + tolerance ∧ channel.upperLine < kline.close then
        if fdivLt (kline.close - kline.low) (kline.high - kline.low) 0.6 then none
        else
          let strength := calculateRetestStrength klines index channel.upperLine true 10
          let confidence := 0.70 + ((strength : ℚ) / 10) * 0.25
          let confidence :=
            if fdivGt (kline.close - kline.low) (kline.high - kline.low) 0.8 then
              min (confidence * 1.1) 1
            else confidence
          some ⟨symbol, kline.openTime / 1000, "RETEST_SUCCESS", kline.close,
            channel.upperLine, strength, min confidence 1, 0⟩
      else if kline.close < channel.upperLine - tolerance then
        some ⟨symbol, kline.openTime / 1000, "RETEST_FAILED", kline.close,
          channel.upperLine, 0, 0.8, 0⟩
      else none
    else if breakoutInfo.breakoutType = "DOWN" then
      if channel.lowerLine - tolerance ≤ kline.high ∧ kline.close < channel.lowerLine then
        if fdivLt (kline.high - kline.close) (kline.high - kline.low) 0.6 then none
        else
          let strength := calculateRetestStrength klines index channel.lowerLine false 10
          let confidence := 0.70 + ((strength : ℚ) / 10) * 0.25
          let confidence :=
            if fdivGt (kline.high - kline.close) (kline.high - kline.low) 0.8 then
              min (confidence * 1.1) 1
            else confidence
          some ⟨symbol, kline.openTime / 1000, "RETEST_SUCCESS", kline.close,
            channel.lowerLine, strength, min confidence 1, 0⟩
      else if channel.lowerLine + tolerance < kline.close then
        some ⟨symbol, kline.openTime / 1000, "RETEST_FAILED", kline.close,
          channel.lowerLine, 0, 0.8, 0⟩
      else none
    else none

/-- The retest-type remapping of lines 219-227 used for the RSI filter. -/
def retestFilterType (signal : BreakoutSignal) : String :=
  if signal.type = "RETEST_SUCCESS" then
    if signal.channelLevel < signal.price then "RETEST_SUCCESS_UP" else "RETEST_SUCCESS_DOWN"
  else signal.type

/-- One iteration of the loop on lines 200-232 (at candle index `i`):
classify the candle, attach the RSI computed at `i`, and apply the RSI
filter.  Each loop iteration appends to the output independently of the
accumulated list, so the loop equals the concatenation of these per-index
lists. -/
def emitAt (klines : List Kline) (closes : List ℚ) (symbol : String)
    (channel : LinearRegressionChannel) (i : ℕ) : List BreakoutSignal :=
  let currentKline := klines.getD i kline0
  let currentRSI := CalculateRSI (closes.take (i + 1)) 14
  (match checkBreakout currentKline channel symbol i klines with
   | none => []
   | some signal =>
     if RSIFilter currentRSI signal.type then [{ signal with rsi := currentRSI }] else []) ++
  (match checkRetest currentKline channel symbol i klines with
   | none => []
   | some signal =>
     if RSIFilter currentRSI (retestFilterType signal) then [{ signal with rsi := currentRSI }]
     else [])

/-- DetectBreakouts (lines 178-235); `dev` is the channel deviation (see the
module docstring and `IsDev`). -/
def DetectBreakouts (ta : TechnicalAnalyzer) (klines : List Kline)
    (symbol : String) (dev : ℚ) : List BreakoutSignal :=
  if klines.length < ta.length + 10 then []
  else
    let closes := klines.map Kline.close
    let analysisEnd := klines.length - 10
    match ta.CalculateLinearRegressionChannel (closes.take analysisEnd) ta.length dev with
    | none => []
    | some channel =>
      (List.range' analysisEnd (klines.length - analysisEnd)).flatMap
        (emitAt klines closes symbol channel)

/-! Helper lemmas. -/

lemma fdivLt_of_ne {b : ℚ} (h : b ≠ 0) (a c : ℚ) :
    fdivLt a b c = decide (a / b < c) := by
  simp [fdivLt, h]

lemma fdivGt_of_ne {b : ℚ} (h : b ≠ 0) (a c : ℚ) :
    fdivGt a b c = decide (c < a / b) := by
  simp [fdivGt, h]

lemma clamp1_mem {x : ℚ} (hx : 0 ≤ x) :
    0 ≤ (if 1 < x then (1 : ℚ) else x) ∧ (if 1 < x then (1 : ℚ) else x) ≤ 1 := by
  split_ifs with h
  · exact ⟨zero_le_one, le_refl 1⟩
  · exact ⟨hx, le_of_not_lt h⟩

lemma minBonus_bounds {c k : ℚ} (hc : 0 ≤ c ∧ c ≤ 1) (hk : 0 ≤ k) :
    0 ≤ min (c * k) 1 ∧ min (c * k) 1 ≤ 1 :=
  ⟨le_min (mul_nonneg hc.1 hk) zero_le_one, min_le_right _ _⟩

lemma calculateRetestStrength_le (klines : List Kline) (currentIndex : ℕ)
    (level : ℚ) (isSupport : Bool) (lookback : ℕ) :
    calculateRetestStrength klines currentIndex level isSupport lookback ≤ lookback := by
  refine le_trans (List.countP_le_length _) ?_
  rw [List.length_range']
  omega

lemma calculateConfidence_bounds (strength : ℕ) (distance deviation : ℚ)
    (hdist : 0 ≤ distance) (hdev : 0 ≤ deviation) :
    0 ≤ calculateConfidence strength distance deviation ∧
      calculateConfidence strength distance deviation ≤ 1 := by
  have hA := clamp1_mem (show (0 : ℚ) ≤ (strength : ℚ) / 10 by positivity)
  have hdc0 : (0 : ℚ) ≤
      (if deviation = 0 then (if 0 < distance then (1 : ℚ) else 0) else distance / deviation) := by
    split_ifs with h1 h2
    · exact zero_le_one
    · exact le_refl 0
    · exact div_nonneg hdist hdev
  have hB := clamp1_mem hdc0
  have hAB : (0 : ℚ) ≤
      ((if 1 < (strength : ℚ) / 10 then (1 : ℚ) else (strength : ℚ) / 10) +
        (if 1 < (if deviation = 0 then (if 0 < distance then (1 : ℚ) else 0)
            else distance / deviation) then (1 : ℚ)
          else (if deviation = 0 then (if 0 < distance then (1 : ℚ) else 0)
            else distance / deviation))) / 2 :=
    div_nonneg (add_nonneg hA.1 hB.1) (by norm_num)
  exact clamp1_mem hAB

lemma CalculateLinearRegressionChannel_deviation {ta : TechnicalAnalyzer}
    {prices : List ℚ} {length : ℕ} {dev : ℚ} {channel : LinearRegressionChannel}
    (h : ta.CalculateLinearRegressionChannel prices length dev = some channel) :
    channel.deviation = dev := by
  unfold CalculateLinearRegressionChannel at h
  split_ifs at h
  injection h with h
  subst h
  rfl

/-! Claim theorems. -/

/-- C1: for every candle series with fewer candles than the fitting window
plus the analysis window (N = `ta.length`, W = 10), `DetectBreakouts` returns
the empty signal list, and `CalculateLinearRegressionChannel` returns no
channel when given fewer than `length` prices — it never fits a channel on a
shorter window. -/
theorem C1_insufficient_data (ta : TechnicalAnalyzer) :
    (∀ (prices : List ℚ) (length : ℕ) (dev : ℚ), prices.length < length →
      ta.CalculateLinearRegressionChannel prices length dev = none) ∧
    (∀ (klines : List Kline) (symbol : String) (dev : ℚ),
      klines.length < ta.length + 10 → ta.DetectBreakouts klines symbol dev = []) := by
  constructor
  · intro prices length dev h
    unfold CalculateLinearRegressionChannel
    rw [if_pos h]
  · intro klines symbol dev h
    unfold DetectBreakouts
    rw [if_pos h]

theorem C1_insufficient_data_witness :
    NewTechnicalAnalyzer.CalculateLinearRegressionChannel [1, 2, 3] 100 0 = none ∧
    NewTechnicalAnalyzer.DetectBreakouts [kline0] ("X") 0 = [] :=
  ⟨(C1_insufficient_data NewTechnicalAnalyzer).1 [1, 2, 3] 100 0 (by decide),
    (C1_insufficient_data NewTechnicalAnalyzer).2 [kline0] ("X") 0 (by decide)⟩

lemma losses_sum_nonneg (changes : List ℚ) :
    0 ≤ (changes.map (fun change => if 0 < change then (0 : ℚ) else -change)).sum := by
  refine List.sum_nonneg ?_
  intro x hx
  obtain ⟨c, _, rfl⟩ := List.mem_map.mp hx
  split_ifs with h
  · exact le_refl 0
  · simpa using le_of_not_lt h

lemma gains_sum_nonneg (changes : List ℚ) :
    0 ≤ (changes.map (fun change => if 0 < change then change else (0 : ℚ))).sum := by
  refine List.sum_nonneg ?_
  intro x hx
  obtain ⟨c, _, rfl⟩ := List.mem_map.mp hx
  split_ifs with h
  · exact le_of_lt h
  · exact le_refl 0

lemma losses_sum_eq_zero {changes : List ℚ} (h : ∀ c ∈ changes, 0 ≤ c) :
    (changes.map (fun change => if 0 < change then (0 : ℚ) else -change)).sum = 0 := by
  refine List.sum_eq_zero ?_
  intro x hx
  obtain ⟨c, hc, rfl⟩ := List.mem_map.mp hx
  split_ifs with h1
  · rfl
  · have := h c hc
    have hc0 : c = 0 := le_antisymm (le_of_not_lt h1) this
    rw [hc0]
    norm_num

/-- C7: `CalculateRSI` always returns a value in [0, 100]; it returns
exactly 50 when fewer than `period+1` prices are supplied, and exactly 100
when every price delta over the period is non-negative with at least one
positive delta (average loss zero); otherwise it returns
`100 - 100/(1 + avgGain/avgLoss)`, which lies in [0, 100]. -/
lemma rsi_else_bounds {G L : ℚ} (hG : 0 ≤ G) (hL : 0 < L) :
    0 ≤ 100 - 100 / (1 + G / L) ∧ 100 - 100 / (1 + G / L) ≤ 100 := by
  have hrs : 0 ≤ G / L := div_nonneg hG hL.le
  have h2 : 100 / (1 + G / L) ≤ (100 : ℚ) := div_le_self (by norm_num) (by linarith)
  have h3 : (0 : ℚ) < 100 / (1 + G / L) := div_pos (by norm_num) (by linarith)
  constructor <;> linarith

theorem C7_rsi_bounds (prices : List ℚ) (period : ℕ) :
    (0 ≤ CalculateRSI prices period ∧ CalculateRSI prices period ≤ 100) ∧
    (prices.length < period + 1 → CalculateRSI prices period = 50) ∧
    (period + 1 ≤ prices.length →
      (∀ c ∈ rsiChanges prices period, 0 ≤ c) →
      (∃ c ∈ rsiChanges prices period, 0 < c) →
      CalculateRSI prices period = 100) := by
  refine ⟨?_, ?_, ?_⟩
  · simp only [CalculateRSI]
    split_ifs with h1 h2
    · norm_num
    · norm_num
    · exact rsi_else_bounds
        (div_nonneg (gains_sum_nonneg _) (Nat.cast_nonneg _))
        (lt_of_le_of_ne (div_nonneg (losses_sum_nonneg _) (Nat.cast_nonneg _)) (Ne.symm h2))
  · intro h
    simp only [CalculateRSI]
    rw [if_pos h]
  · intro hlen hnn _
    have hz : ((rsiChanges prices period).map
        (fun change => if 0 < change then (0 : ℚ) else -change)).sum /
        ((((rsiChanges prices period).map
          (fun change => if 0 < change then (0 : ℚ) else -change)).length : ℕ) : ℚ) = 0 := by
      rw [losses_sum_eq_zero hnn]
      exact zero_div _
    simp only [CalculateRSI]
    rw [if_neg (by omega), if_pos hz]

theorem C7_rsi_bounds_witness :
    (0 ≤ TechnicalAnalyzer.CalculateRSI [1, 2, 3] 2 ∧
      TechnicalAnalyzer.CalculateRSI [1, 2, 3] 2 ≤ 100) ∧
    TechnicalAnalyzer.CalculateRSI [1, 2, 3] 2 = 100 :=
  ⟨(C7_rsi_bounds [1, 2, 3] 2).1,
    (C7_rsi_bounds [1, 2, 3] 2).2.2 (by decide) (by decide) ⟨1, by decide, by decide⟩⟩

/-- C4: `checkBreakout` emits UP_BREAKOUT iff the candle is bullish
(close > open) and its close strictly exceeds the upper band plus
0.1·deviation; DOWN_BREAKOUT iff bearish and close strictly below the lower
band minus 0.1·deviation; and it emits at most one breakout event per candle
(the result is a single `Option` whose type is always one of the two).  The
hypotheses state that the candle's stored `isGreen`/`isRed` flags agree with
the close/open comparison, as every candle constructor in the source
guarantees. -/
theorem C4_checkBreakout_characterization (kline : Kline)
    (channel : LinearRegressionChannel) (symbol : String) (index : ℕ)
    (klines : List Kline)
    (hG : kline.isGreen = true ↔ kline.open_ < kline.close)
    (hR : kline.isRed = true ↔ kline.close < kline.open_) :
    ((∃ s, checkBreakout kline channel symbol index klines = some s ∧
        s.type = "UP_BREAKOUT") ↔
      kline.open_ < kline.close ∧
        channel.upperLine + channel.deviation * 0.1 < kline.close) ∧
    ((∃ s, checkBreakout kline channel symbol index klines = some s ∧
        s.type = "DOWN_BREAKOUT") ↔
      kline.close < kline.open_ ∧
        kline.close < channel.lowerLine - channel.deviation * 0.1) ∧
    (∀ s, checkBreakout kline channel symbol index klines = some s →
      s.type = "UP_BREAKOUT" ∨ s.type = "DOWN_BREAKOUT") := by
  simp only [checkBreakout]
  by_cases h1 : kline.isGreen = true ∧ channel.upperLine + channel.deviation * 0.1 < kline.close
  · rw [if_pos h1]
    refine ⟨⟨fun _ => ⟨hG.mp h1.1, h1.2⟩, fun _ => ⟨_, rfl, rfl⟩⟩, ⟨?_, ?_⟩, ?_⟩
    · rintro ⟨s, hs, ht⟩
      injection hs with hs
      rw [← hs] at ht
      simp at ht
    · rintro ⟨hco, _⟩
      exact absurd hco (lt_asymm (hG.mp h1.1))
    · intro s hs
      injection hs with hs
      rw [← hs]
      left
      rfl
  · rw [if_neg h1]
    by_cases h2 : kline.isRed = true ∧ kline.close < channel.lowerLine - channel.deviation * 0.1
    · rw [if_pos h2]
      refine ⟨⟨?_, ?_⟩, ⟨fun _ => ⟨hR.mp h2.1, h2.2⟩, fun _ => ⟨_, rfl, rfl⟩⟩, ?_⟩
      · rintro ⟨s, hs, ht⟩
        injection hs with hs
        rw [← hs] at ht
        simp at ht
      · rintro ⟨hco, _⟩
        exact absurd hco (lt_asymm (hR.mp h2.1))
      · intro s hs
        injection hs with hs
        rw [← hs]
        right
        rfl
    · rw [if_neg h2]
      refine ⟨⟨?_, ?_⟩, ⟨?_, ?_⟩, ?_⟩
      · rintro ⟨s, hs, _⟩
        exact Option.noConfusion hs
      · rintro ⟨hco, hmargin⟩
        exact absurd ⟨hG.mpr hco, hmargin⟩ h1
      · rintro ⟨s, hs, _⟩
        exact Option.noConfusion hs
      · rintro ⟨hco, hmargin⟩
        exact absurd ⟨hR.mpr hco, hmargin⟩ h2
      · intro s hs
        exact Option.noConfusion hs

theorem C4_checkBreakout_characterization_witness :
    ∃ s, checkBreakout (⟨0, 10, 10.3, 10, 10.2, 1, 0, true, false⟩ : Kline)
        (⟨10, 9, 8, 0, 1, false, false⟩ : LinearRegressionChannel) ("S") 0 [] = some s ∧
      s.type = "UP_BREAKOUT" :=
  (C4_checkBreakout_characterization ⟨0, 10, 10.3, 10, 10.2, 1, 0, true, false⟩
    ⟨10, 9, 8, 0, 1, false, false⟩ ("S") 0 [] (by decide) (by decide)).1.mpr (by decide)

/-- Concrete data for C10: a channel with upper band 10 and deviation 2, a
prior UP-qualifying close (10.5 > 10 + 0.2) at index 0, and a degenerate
candle at index 1 with high = low = close = 10.2. -/
def chTen : LinearRegressionChannel := ⟨10, 9, 8, 0, 2, false, false⟩

def degTen : Kline := ⟨0, 10.2, 10.2, 10.2, 10.2, 1, 0, false, false⟩

def klTen : List Kline := [⟨0, 10, 10.5, 10, 10.5, 1, 0, true, false⟩, degTen]

/-- C10: `checkRetest` computes the bounce ratio without guarding against a
zero candle range: for this candle with high = low = close that satisfies the
touch and close conditions after a located UP breakout, the divisor
high − low is zero, the `bounceStrength < 0.6` rejection does not exclude the
candle (the Go comparison of the NaN quotient is false), and a
RETEST_SUCCESS event is emitted — unlike `checkBreakout`, whose body-ratio
bonus is guarded by `candleRange > 0`. -/
theorem C10_zero_range_retest_success :
    degTen.high - degTen.low = 0 ∧
    degTen.low ≤ chTen.upperLine + chTen.deviation * 0.15 ∧
    chTen.upperLine < degTen.close ∧
    fdivLt (degTen.close - degTen.low) (degTen.high - degTen.low) 0.6 = false ∧
    checkRetest degTen chTen ("S") 1 klTen =
      some ⟨"S", 0, "RETEST_SUCCESS", 10.2, 10, 1, 0.725, 0⟩ := by
  decide

/-- Concrete data for C5: channel with upper band 20, deviation 4, and a
prior UP-qualifying close (21 > 20 + 0.4) at index 0. -/
def chFive : LinearRegressionChannel := ⟨20, 18, 16, 0, 4, false, false⟩

def degFive : Kline := ⟨0, 20.3, 20.3, 20.3, 20.3, 1, 0, false, false⟩

def klFive : List Kline := [⟨0, 20, 21, 20, 21, 1, 0, true, false⟩, degFive]

/-- C5 counterexample: after a located prior UP breakout, a candle with
high = low = close = 20.3 satisfies the touch and close conditions, its
bounce ratio (close−low)/(high−low) is a division by zero (0 in the exact
rational convention, NaN in Go — in neither sense ≥ 0.6), and yet
`checkRetest` emits RETEST_SUCCESS, refuting the claimed "exactly when". -/
theorem C5_counterexample :
    (∃ s, checkRetest degFive chFive ("S") 1 klFive = some s ∧
      s.type = "RETEST_SUCCESS") ∧
    findRecentBreakout klFive 1 chFive 5 = some ⟨"UP", 21, 0, 20⟩ ∧
    degFive.high - degFive.low = 0 ∧
    ¬(0.6 ≤ (degFive.close - degFive.low) / (degFive.high - degFive.low)) := by
  refine ⟨⟨⟨"S", 0, "RETEST_SUCCESS", 20.3, 20, 1, 0.725, 0⟩, by decide, by decide⟩,
    by decide, by decide, by decide⟩

/-- C5 (amended): given a located prior UP breakout and a candle with
nonzero range (high ≠ low), `checkRetest` emits RETEST_SUCCESS exactly when
the candle's low touches within tolerance (0.15·deviation) of the upper
band, the candle closes above the band, and the bounce ratio
(close−low)/(high−low) is ≥ 0.6; the emitted confidence equals
0.70 + 0.25·(strength/10), further ×1.1 capped at 1.0 when the bounce ratio
exceeds 0.8, and is always ≥ 0.70.  (Without the high ≠ low hypothesis the
claimed "exactly when" fails: see the counterexample.) -/
theorem C5_retest_success_characterization (kline : Kline)
    (channel : LinearRegressionChannel) (symbol : String) (index : ℕ)
    (klines : List Kline) (info : BreakoutInfo)
    (hfind : findRecentBreakout klines index channel 5 = some info)
    (hUp : info.breakoutType = "UP")
    (hrange : kline.high ≠ kline.low) :
    ((∃ s, checkRetest kline channel symbol index klines = some s ∧
        s.type = "RETEST_SUCCESS") ↔
      (kline.low ≤ channel.upperLine + channel.deviation * 0.15 ∧
        channel.upperLine < kline.close ∧
        0.6 ≤ (kline.close - kline.low) / (kline.high - kline.low))) ∧
    (∀ s, checkRetest kline channel symbol index klines = some s →
      s.type = "RETEST_SUCCESS" →
      s.confidence =
        (if 0.8 < (kline.close - kline.low) / (kline.high - kline.low) then
          min ((0.70 +
            ((calculateRetestStrength klines index channel.upperLine true 10 : ℚ) / 10) *
              0.25) * 1.1) 1
         else
          0.70 +
            ((calculateRetestStrength klines index channel.upperLine true 10 : ℚ) / 10) *
              0.25) ∧
      0.70 ≤ s.confidence) := by
  have hb : kline.high - kline.low ≠ 0 := sub_ne_zero.mpr hrange
  have hst10 : ((calculateRetestStrength klines index channel.upperLine true 10 : ℕ) : ℚ) ≤ 10 := by
    have := calculateRetestStrength_le klines index channel.upperLine true 10
    exact_mod_cast this
  have hst0 : (0 : ℚ) ≤ ((calculateRetestStrength klines index channel.upperLine true 10 : ℕ) : ℚ) :=
    Nat.cast_nonneg _
  have hbase1 : 0.70 +
      ((calculateRetestStrength klines index channel.upperLine true 10 : ℕ) : ℚ) / 10 * 0.25 ≤ 1 := by
    linarith
  have hbase07 : (0.70 : ℚ) ≤ 0.70 +
      ((calculateRetestStrength klines index channel.upperLine true 10 : ℕ) : ℚ) / 10 * 0.25 := by
    linarith
  simp only [checkRetest, hfind]
  rw [if_pos hUp, fdivLt_of_ne hb, fdivGt_of_ne hb]
  by_cases hTouch : kline.low ≤ channel.upperLine + channel.deviation * 0.15 ∧
      channel.upperLine < kline.close
  · rw [if_pos hTouch]
    by_cases hLt60 : (kline.close - kline.low) / (kline.high - kline.low) < 0.6
    · rw [if_pos (decide_eq_true hLt60)]
      refine ⟨⟨?_, ?_⟩, ?_⟩
      · rintro ⟨s, hs, _⟩
        exact Option.noConfusion hs
      · rintro ⟨_, _, hge⟩
        exact absurd hLt60 (not_lt.mpr hge)
      · intro s hs
        exact Option.noConfusion hs
    · rw [if_neg (by simp [hLt60])]
      refine ⟨⟨fun _ => ⟨hTouch.1, hTouch.2, le_of_not_lt hLt60⟩, fun _ => ⟨_, rfl, rfl⟩⟩, ?_⟩
      intro s hs _
      injection hs with hs
      rw [← hs]
      constructor
      · dsimp only
        by_cases hGt80 : 0.8 < (kline.close - kline.low) / (kline.high - kline.low)
        · rw [if_pos (by simp [hGt80]), if_pos hGt80]
          exact min_eq_left (min_le_right _ _)
        · rw [if_neg (by simp [hGt80]), if_neg hGt80]
          exact min_eq_left hbase1
      · dsimp only
        by_cases hGt80 : 0.8 < (kline.close - kline.low) / (kline.high - kline.low)
        · rw [if_pos (by simp [hGt80])]
          refine le_min (le_min ?_ (by norm_num)) (by norm_num)
          linarith
        · rw [if_neg (by simp [hGt80])]
          rw [min_eq_left hbase1]
          exact hbase07
  · rw [if_neg hTouch]
    by_cases hFail : kline.close < channel.upperLine - channel.deviation * 0.15
    · rw [if_pos hFail]
      refine ⟨⟨?_, ?_⟩, ?_⟩
      · rintro ⟨s, hs, ht⟩
        injection hs with hs
        rw [← hs] at ht
        simp at ht
      · rintro ⟨hlo, hcl, _⟩
        exact absurd ⟨hlo, hcl⟩ hTouch
      · intro s hs hty
        injection hs with hs
        rw [← hs] at hty
        simp at hty
    · rw [if_neg hFail]
      refine ⟨⟨?_, ?_⟩, ?_⟩
      · rintro ⟨s, hs, _⟩
        exact Option.noConfusion hs
      · rintro ⟨hlo, hcl, _⟩
        exact absurd ⟨hlo, hcl⟩ hTouch
      · intro s hs
        exact Option.noConfusion hs

theorem C5_retest_success_witness :
    ∃ s, checkRetest (⟨0, 20.5, 21, 20.2, 20.9, 1, 0, true, false⟩ : Kline) chFive ("S") 1
        [⟨0, 20, 21, 20, 21, 1, 0, true, false⟩,
          ⟨0, 20.5, 21, 20.2, 20.9, 1, 0, true, false⟩] = some s ∧
      s.type = "RETEST_SUCCESS" :=
  (C5_retest_success_characterization ⟨0, 20.5, 21, 20.2, 20.9, 1, 0, true, false⟩ chFive
    ("S") 1
    [⟨0, 20, 21, 20, 21, 1, 0, true, false⟩, ⟨0, 20.5, 21, 20.2, 20.9, 1, 0, true, false⟩]
    ⟨"UP", 21, 0, 20⟩ (by decide) (by decide) (by decide)).1.mpr (by decide)

/-! Lemmas about `findRecentBreakout`, the classifiers, and membership in
`DetectBreakouts`. -/

lemma findRecentBreakout_some {klines : List Kline} {currentIndex : ℕ}
    {channel : LinearRegressionChannel} {lookback : ℕ} {info : BreakoutInfo}
    (h : findRecentBreakout klines currentIndex channel lookback = some info) :
    currentIndex - lookback ≤ info.index ∧ info.index < currentIndex ∧
      ((info.breakoutType = "UP" ∧
          channel.upperLine + channel.deviation * 0.1 <
            (klines.getD info.index kline0).close ∧
          info.level = channel.upperLine) ∨
       (info.breakoutType = "DOWN" ∧
          (klines.getD info.index kline0).close <
            channel.lowerLine - channel.deviation * 0.1 ∧
          info.level = channel.lowerLine)) := by
  unfold findRecentBreakout at h
  obtain ⟨i, hi, hfi⟩ := List.exists_of_findSome?_eq_some h
  rw [List.mem_reverse, List.mem_range'_1] at hi
  split_ifs at hfi with h1 h2
  · injection hfi with hfi
    subst hfi
    refine ⟨?_, ?_, Or.inl ⟨rfl, h1, rfl⟩⟩ <;> dsimp only <;> omega
  · injection hfi with hfi
    subst hfi
    refine ⟨?_, ?_, Or.inr ⟨rfl, h2, rfl⟩⟩ <;> dsimp only <;> omega

lemma findRecentBreakout_eq_none {klines : List Kline} {currentIndex : ℕ}
    {channel : LinearRegressionChannel} {lookback : ℕ}
    (h : ∀ j, currentIndex - lookback ≤ j → j < currentIndex →
      ¬(channel.upperLine + channel.deviation * 0.1 < (klines.getD j kline0).close) ∧
      ¬((klines.getD j kline0).close < channel.lowerLine - channel.deviation * 0.1)) :
    findRecentBreakout klines currentIndex channel lookback = none := by
  unfold findRecentBreakout
  rw [List.findSome?_eq_none_iff]
  intro j hj
  rw [List.mem_reverse, List.mem_range'_1] at hj
  obtain ⟨h1, h2⟩ := h j (by omega) (by omega)
  rw [if_neg h1, if_neg h2]

lemma bonus_chain_bounds {c : ℚ} (hcc : 0 ≤ c ∧ c ≤ 1) (v : Bool) (b : Prop)
    [Decidable b] :
    0 ≤ (if b then min ((if v = true then min (c * 1.1) 1 else c) * 1.05) 1
        else (if v = true then min (c * 1.1) 1 else c)) ∧
      (if b then min ((if v = true then min (c * 1.1) 1 else c) * 1.05) 1
        else (if v = true then min (c * 1.1) 1 else c)) ≤ 1 := by
  have h1 : 0 ≤ (if v = true then min (c * 1.1) 1 else c) ∧
      (if v = true then min (c * 1.1) 1 else c) ≤ 1 := by
    split_ifs with h
    · exact minBonus_bounds hcc (by norm_num)
    · exact hcc
  by_cases hb : b
  · rw [if_pos hb]
    exact minBonus_bounds h1 (by norm_num)
  · rw [if_neg hb]
    exact h1

lemma checkBreakout_elim {kline : Kline} {channel : LinearRegressionChannel}
    {symbol : String} {index : ℕ} {klines : List Kline} {s : BreakoutSignal}
    (h : checkBreakout kline channel symbol index klines = some s) :
    (s.type = "UP_BREAKOUT" ∨ s.type = "DOWN_BREAKOUT") ∧
    (0 ≤ channel.deviation → 0 ≤ s.confidence ∧ s.confidence ≤ 1) := by
  simp only [checkBreakout] at h
  by_cases h1 : kline.isGreen = true ∧ channel.upperLine + channel.deviation * 0.1 < kline.close
  · rw [if_pos h1] at h
    injection h with h
    subst h
    refine ⟨Or.inl rfl, fun hdev => ?_⟩
    have hdist : (0 : ℚ) ≤ kline.close - channel.upperLine := by
      have h01 : (0 : ℚ) ≤ channel.deviation * 0.1 := by positivity
      linarith [h1.2]
    have hcc := calculateConfidence_bounds
      (calculateSupport klines index channel.upperLine false 10)
      (kline.close - channel.upperLine) channel.deviation hdist hdev
    dsimp only
    exact bonus_chain_bounds hcc _ _
  · rw [if_neg h1] at h
    by_cases h2 : kline.isRed = true ∧ kline.close < channel.lowerLine - channel.deviation * 0.1
    · rw [if_pos h2] at h
      injection h with h
      subst h
      refine ⟨Or.inr rfl, fun hdev => ?_⟩
      have hdist : (0 : ℚ) ≤ channel.lowerLine - kline.close := by
        have h01 : (0 : ℚ) ≤ channel.deviation * 0.1 := by positivity
        linarith [h2.2]
      have hcc := calculateConfidence_bounds
        (calculateSupport klines index channel.lowerLine true 10)
        (channel.lowerLine - kline.close) channel.deviation hdist hdev
      dsimp only
      exact bonus_chain_bounds hcc _ _
    · rw [if_neg h2] at h
      exact Option.noConfusion h

lemma checkRetest_elim {kline : Kline} {channel : LinearRegressionChannel}
    {symbol : String} {index : ℕ} {klines : List Kline} {s : BreakoutSignal}
    (h : checkRetest kline channel symbol index klines = some s) :
    ∃ info, findRecentBreakout klines index channel 5 = some info ∧
      ((info.breakoutType = "UP" ∧ s.channelLevel = channel.upperLine) ∨
       (info.breakoutType = "DOWN" ∧ s.channelLevel = channel.lowerLine)) ∧
      ((s.type = "RETEST_SUCCESS" ∧ 0.70 ≤ s.confidence ∧ s.confidence ≤ 1) ∨
       (s.type = "RETEST_FAILED" ∧ s.confidence = 0.8)) := by
  cases hfind : findRecentBreakout klines index channel 5 with
  | none =>
    simp [checkRetest, hfind] at h
  | some info =>
    refine ⟨info, rfl, ?_⟩
    simp only [checkRetest, hfind] at h
    have hst10u : ((calculateRetestStrength klines index channel.upperLine true 10 : ℕ) : ℚ) ≤ 10 := by
      exact_mod_cast calculateRetestStrength_le klines index channel.upperLine true 10
    have hst0u : (0 : ℚ) ≤
        ((calculateRetestStrength klines index channel.upperLine true 10 : ℕ) : ℚ) :=
      Nat.cast_nonneg _
    have hst10l : ((calculateRetestStrength klines index channel.lowerLine false 10 : ℕ) : ℚ) ≤ 10 := by
      exact_mod_cast calculateRetestStrength_le klines index channel.lowerLine false 10
    have hst0l : (0 : ℚ) ≤
        ((calculateRetestStrength klines index channel.lowerLine false 10 : ℕ) : ℚ) :=
      Nat.cast_nonneg _
    by_cases hU : info.breakoutType = "UP"
    · rw [if_pos hU] at h
      by_cases hTouch : kline.low ≤ channel.upperLine + channel.deviation * 0.15 ∧
          channel.upperLine < kline.close
      · rw [if_pos hTouch] at h
        by_cases hLt : fdivLt (kline.close - kline.low) (kline.high - kline.low) 0.6 = true
        · rw [if_pos hLt] at h
          exact Option.noConfusion h
        · rw [if_neg hLt] at h
          injection h with h
          subst h
          refine ⟨Or.inl ⟨hU, rfl⟩, Or.inl ⟨rfl, ?_, min_le_right _ _⟩⟩
          dsimp only
          by_cases hGt : fdivGt (kline.close - kline.low) (kline.high - kline.low) 0.8 = true
          · rw [if_pos hGt]
            refine le_min (le_min ?_ (by norm_num)) (by norm_num)
            linarith
          · rw [if_neg hGt]
            rw [min_eq_left (by linarith)]
            linarith
      · rw [if_neg hTouch] at h
        by_cases hFail : kline.close < channel.upperLine - channel.deviation * 0.15
        · rw [if_pos hFail] at h
          injection h with h
          subst h
          exact ⟨Or.inl ⟨hU, rfl⟩, Or.inr ⟨rfl, rfl⟩⟩
        · rw [if_neg hFail] at h
          exact Option.noConfusion h
    · rw [if_neg hU] at h
      by_cases hD : info.breakoutType = "DOWN"
      · rw [if_pos hD] at h
        by_cases hTouch : channel.lowerLine - channel.deviation * 0.15 ≤ kline.high ∧
            kline.close < channel.lowerLine
        · rw [if_pos hTouch] at h
          by_cases hLt : fdivLt (kline.high - kline.close) (kline.high - kline.low) 0.6 = true
          · rw [if_pos hLt] at h
            exact Option.noConfusion h
          · rw [if_neg hLt] at h
            injection h with h
            subst h
            refine ⟨Or.inr ⟨hD, rfl⟩, Or.inl ⟨rfl, ?_, min_le_right _ _⟩⟩
            dsimp only
            by_cases hGt : fdivGt (kline.high - kline.close) (kline.high - kline.low) 0.8 = true
            · rw [if_pos hGt]
              refine le_min (le_min ?_ (by norm_num)) (by norm_num)
              linarith
            · rw [if_neg hGt]
              rw [min_eq_left (by linarith)]
              linarith
        · rw [if_neg hTouch] at h
          by_cases hFail : channel.lowerLine + channel.deviation * 0.15 < kline.close
          · rw [if_pos hFail] at h
            injection h with h
            subst h
            exact ⟨Or.inr ⟨hD, rfl⟩, Or.inr ⟨rfl, rfl⟩⟩
          · rw [if_neg hFail] at h
            exact Option.noConfusion h
      · rw [if_neg hD] at h
        exact Option.noConfusion h

lemma emitAt_elim {klines : List Kline} {closes : List ℚ} {symbol : String}
    {channel : LinearRegressionChannel} {i : ℕ} {s : BreakoutSignal}
    (h : s ∈ emitAt klines closes symbol channel i) :
    (∃ sig, checkBreakout (klines.getD i kline0) channel symbol i klines = some sig ∧
      RSIFilter (CalculateRSI (closes.take (i + 1)) 14) sig.type = true ∧
      s = { sig with rsi := CalculateRSI (closes.take (i + 1)) 14 }) ∨
    (∃ sig, checkRetest (klines.getD i kline0) channel symbol i klines = some sig ∧
      RSIFilter (CalculateRSI (closes.take (i + 1)) 14) (retestFilterType sig) = true ∧
      s = { sig with rsi := CalculateRSI (closes.take (i + 1)) 14 }) := by
  simp only [emitAt, List.mem_append] at h
  rcases h with h | h
  · left
    cases hcb : checkBreakout (klines.getD i kline0) channel symbol i klines with
    | none =>
      simp only [hcb] at h
      simp at h
    | some sig =>
      simp only [hcb] at h
      by_cases hf : RSIFilter (CalculateRSI (closes.take (i + 1)) 14) sig.type = true
      · rw [if_pos hf, List.mem_singleton] at h
        exact ⟨sig, rfl, hf, h⟩
      · rw [if_neg hf] at h
        simp at h
  · right
    cases hcr : checkRetest (klines.getD i kline0) channel symbol i klines with
    | none =>
      simp only [hcr] at h
      simp at h
    | some sig =>
      simp only [hcr] at h
      by_cases hf : RSIFilter (CalculateRSI (closes.take (i + 1)) 14) (retestFilterType sig) = true
      · rw [if_pos hf, List.mem_singleton] at h
        exact ⟨sig, rfl, hf, h⟩
      · rw [if_neg hf] at h
        simp at h

lemma retest_mem_emitAt {klines : List Kline} {closes : List ℚ} {symbol : String}
    {channel : LinearRegressionChannel} {i : ℕ} {sig : BreakoutSignal}
    (h : checkRetest (klines.getD i kline0) channel symbol i klines = some sig)
    (hf : RSIFilter (CalculateRSI (closes.take (i + 1)) 14) (retestFilterType sig) = true) :
    { sig with rsi := CalculateRSI (closes.take (i + 1)) 14 } ∈
      emitAt klines closes symbol channel i := by
  simp only [emitAt, h]
  rw [if_pos hf]
  exact List.mem_append.mpr (Or.inr (List.mem_singleton.mpr rfl))

lemma mem_DetectBreakouts {ta : TechnicalAnalyzer} {klines : List Kline}
    {symbol : String} {dev : ℚ} {channel : LinearRegressionChannel} {s : BreakoutSignal}
    (hlen : ta.length + 10 ≤ klines.length)
    (hch : ta.CalculateLinearRegressionChannel
      ((klines.map Kline.close).take (klines.length - 10)) ta.length dev = some channel) :
    s ∈ ta.DetectBreakouts klines symbol dev ↔
      ∃ i, (klines.length - 10 ≤ i ∧ i < klines.length) ∧
        s ∈ emitAt klines (klines.map Kline.close) symbol channel i := by
  simp only [DetectBreakouts, hch]
  rw [if_neg (by omega), List.mem_flatMap]
  constructor
  · rintro ⟨i, hi, hmem⟩
    rw [List.mem_range'_1] at hi
    exact ⟨i, ⟨hi.1, by omega⟩, hmem⟩
  · rintro ⟨i, hi, hmem⟩
    exact ⟨i, List.mem_range'_1.mpr ⟨hi.1, by omega⟩, hmem⟩

/-- C3: every signal emitted by `DetectBreakouts` (UP_BREAKOUT,
DOWN_BREAKOUT, RETEST_SUCCESS, RETEST_FAILED) has confidence in [0, 1]
inclusive, including after the volume (×1.10), strong-body (×1.05) and
strong-bounce (×1.10) bonus multipliers; `dev` is non-negative, as the
square root computed by the source always is. -/
theorem C3_confidence_in_unit_interval (ta : TechnicalAnalyzer) (klines : List Kline)
    (symbol : String) (dev : ℚ) (hdev : 0 ≤ dev) :
    ∀ s ∈ ta.DetectBreakouts klines symbol dev, 0 ≤ s.confidence ∧ s.confidence ≤ 1 := by
  intro s hs
  by_cases hlen : ta.length + 10 ≤ klines.length
  · cases hch : ta.CalculateLinearRegressionChannel
        ((klines.map Kline.close).take (klines.length - 10)) ta.length dev with
    | none =>
      simp only [DetectBreakouts, hch] at hs
      rw [if_neg (by omega)] at hs
      exact absurd hs (List.not_mem_nil s)
    | some channel =>
      rw [mem_DetectBreakouts hlen hch] at hs
      obtain ⟨i, _, hmem⟩ := hs
      have hdev' : 0 ≤ channel.deviation := by
        rw [CalculateLinearRegressionChannel_deviation hch]
        exact hdev
      rcases emitAt_elim hmem with ⟨sig, hcb, _, rfl⟩ | ⟨sig, hcr, _, rfl⟩
      · have hb := (checkBreakout_elim hcb).2 hdev'
        simpa using hb
      · obtain ⟨info, _, _, htyp⟩ := checkRetest_elim hcr
        rcases htyp with ⟨_, h07, h1⟩ | ⟨_, hc⟩
        · constructor
          · dsimp only
            linarith
          · dsimp only
            exact h1
        · constructor
          · dsimp only
            rw [hc]
            norm_num
          · dsimp only
            rw [hc]
            norm_num
  · unfold DetectBreakouts at hs
    rw [if_pos (by omega)] at hs
    exact absurd hs (List.not_mem_nil s)

/-- Flat candle with open = high = low = close = `c` and volume `v`
(`isGreen`/`isRed` false, as `GetKlineData` would compute). -/
def flatKline (c v : ℚ) : Kline := ⟨0, c, c, c, c, v, 0, false, false⟩

/-- Concrete 110-candle series: 100 flat candles at 100 (flat fitting window,
deviation 0), then a dip to 99, recovery, dip, recovery, and a green candle
closing at 102 (an UP breakout whose 14-period RSI is 200/3 ≈ 66.7), then
5 flat candles. -/
def klWig : List Kline :=
  List.replicate 100 (flatKline 100 1) ++
    [⟨0, 100, 100, 99, 99, 1, 0, false, true⟩,
     ⟨0, 99, 100, 99, 100, 1, 0, true, false⟩,
     ⟨0, 100, 100, 99, 99, 1, 0, false, true⟩,
     ⟨0, 99, 100, 99, 100, 1, 0, true, false⟩,
     ⟨0, 100, 102, 100, 102, 1, 0, true, false⟩] ++
    List.replicate 5 (flatKline 100 1)

/-- The UP_BREAKOUT signal emitted by `DetectBreakouts` on `klWig` at candle
index 104. -/
def sigWigUp : BreakoutSignal := ⟨"X", 0, "UP_BREAKOUT", 102, 100, 10, 1, 200 / 3⟩

set_option maxRecDepth 10000 in
theorem C3_confidence_in_unit_interval_witness :
    (0 : ℚ) ≤ 0 ∧ sigWigUp ∈ NewTechnicalAnalyzer.DetectBreakouts klWig ("X") 0 ∧
      0 ≤ sigWigUp.confidence ∧ sigWigUp.confidence ≤ 1 :=
  ⟨le_refl 0, by decide,
    C3_confidence_in_unit_interval NewTechnicalAnalyzer klWig ("X") 0 (le_refl 0)
      sigWigUp (by decide)⟩

/-- C8: in the final output of `DetectBreakouts`, an UP-direction signal
(UP_BREAKOUT, or RETEST_SUCCESS with price above the channel level) appears
only if the RSI attached to it is in [30, 80], and a DOWN-direction signal
(DOWN_BREAKOUT, or RETEST_SUCCESS with price at or below the channel level)
appears only if that RSI is in [20, 70]; in particular an UP_BREAKOUT candle
whose RSI is outside [30, 80] (such as 85 or 100) is classified but excluded
from the output. -/
theorem C8_rsi_gating (ta : TechnicalAnalyzer) (klines : List Kline) (symbol : String)
    (dev : ℚ) (s : BreakoutSignal) (hs : s ∈ ta.DetectBreakouts klines symbol dev) :
    ((s.type = "UP_BREAKOUT" ∨ (s.type = "RETEST_SUCCESS" ∧ s.channelLevel < s.price)) →
      30 ≤ s.rsi ∧ s.rsi ≤ 80) ∧
    ((s.type = "DOWN_BREAKOUT" ∨ (s.type = "RETEST_SUCCESS" ∧ s.price ≤ s.channelLevel)) →
      20 ≤ s.rsi ∧ s.rsi ≤ 70) := by
  by_cases hlen : ta.length + 10 ≤ klines.length
  · cases hch : ta.CalculateLinearRegressionChannel
        ((klines.map Kline.close).take (klines.length - 10)) ta.length dev with
    | none =>
      simp only [DetectBreakouts, hch] at hs
      rw [if_neg (by omega)] at hs
      exact absurd hs (List.not_mem_nil s)
    | some channel =>
      rw [mem_DetectBreakouts hlen hch] at hs
      obtain ⟨i, _, hmem⟩ := hs
      rcases emitAt_elim hmem with ⟨sig, hcb, hf, rfl⟩ | ⟨sig, hcr, hf, rfl⟩
      · have hty := (checkBreakout_elim hcb).1
        constructor
        · rintro (hty' | ⟨hty', _⟩)
          · have hsig : sig.type = "UP_BREAKOUT" := by simpa using hty'
            rw [hsig] at hf
            unfold RSIFilter at hf
            rw [if_pos (Or.inl rfl)] at hf
            have hrsi := of_decide_eq_true hf
            simpa using hrsi
          · have hsig : sig.type = "RETEST_SUCCESS" := by simpa using hty'
            rcases hty with h | h <;> rw [hsig] at h <;> exact absurd h (by decide)
        · rintro (hty' | ⟨hty', _⟩)
          · have hsig : sig.type = "DOWN_BREAKOUT" := by simpa using hty'
            rw [hsig] at hf
            unfold RSIFilter at hf
            rw [if_neg (by decide), if_pos (Or.inl rfl)] at hf
            have hrsi := of_decide_eq_true hf
            simpa using hrsi
          · have hsig : sig.type = "RETEST_SUCCESS" := by simpa using hty'
            rcases hty with h | h <;> rw [hsig] at h <;> exact absurd h (by decide)
      · obtain ⟨info, _, _, htyp⟩ := checkRetest_elim hcr
        constructor
        · rintro (hty' | ⟨hty', hpl⟩)
          · have hsig : sig.type = "UP_BREAKOUT" := by simpa using hty'
            rcases htyp with ⟨h, _⟩ | ⟨h, _⟩ <;> rw [hsig] at h <;> exact absurd h (by decide)
          · have hsig : sig.type = "RETEST_SUCCESS" := by simpa using hty'
            have hpl' : sig.channelLevel < sig.price := by simpa using hpl
            have hft : retestFilterType sig = "RETEST_SUCCESS_UP" := by
              unfold retestFilterType
              rw [if_pos hsig, if_pos hpl']
            rw [hft] at hf
            unfold RSIFilter at hf
            rw [if_pos (Or.inr rfl)] at hf
            have hrsi := of_decide_eq_true hf
            simpa using hrsi
        · rintro (hty' | ⟨hty', hpl⟩)
          · have hsig : sig.type = "DOWN_BREAKOUT" := by simpa using hty'
            rcases htyp with ⟨h, _⟩ | ⟨h, _⟩ <;> rw [hsig] at h <;> exact absurd h (by decide)
          · have hsig : sig.type = "RETEST_SUCCESS" := by simpa using hty'
            have hpl' : sig.price ≤ sig.channelLevel := by simpa using hpl
            have hft : retestFilterType sig = "RETEST_SUCCESS_DOWN" := by
              unfold retestFilterType
              rw [if_pos hsig, if_neg (not_lt.mpr hpl')]
            rw [hft] at hf
            unfold RSIFilter at hf
            rw [if_neg (by decide), if_pos (Or.inr rfl)] at hf
            have hrsi := of_decide_eq_true hf
            simpa using hrsi
  · unfold DetectBreakouts at hs
    rw [if_pos (by omega)] at hs
    exact absurd hs (List.not_mem_nil s)

set_option maxRecDepth 10000 in
theorem C8_rsi_gating_witness :
    sigWigUp ∈ NewTechnicalAnalyzer.DetectBreakouts klWig ("X") 0 ∧
      sigWigUp.type = "UP_BREAKOUT" ∧ 30 ≤ sigWigUp.rsi ∧ sigWigUp.rsi ≤ 80 :=
  ⟨by decide, by decide,
    (C8_rsi_gating NewTechnicalAnalyzer klWig ("X") 0 sigWigUp (by decide)).1
      (Or.inl (by decide))⟩

/-- C6: given a located prior UP breakout, a candle that closes below
upperLine − tolerance (tolerance = 0.15·deviation) yields a RETEST_FAILED
event with confidence exactly 0.80, and that signal (with the RSI computed
at its candle attached) is included in the final aggregated output of
`DetectBreakouts` — the RSI filter's default branch accepts RETEST_FAILED
regardless of the RSI value. -/
theorem C6_retest_failed_included (ta : TechnicalAnalyzer) (klines : List Kline)
    (symbol : String) (dev : ℚ) (channel : LinearRegressionChannel) (i : ℕ)
    (info : BreakoutInfo)
    (hlen : ta.length + 10 ≤ klines.length)
    (hch : ta.CalculateLinearRegressionChannel
      ((klines.map Kline.close).take (klines.length - 10)) ta.length dev = some channel)
    (hdev : 0 ≤ dev)
    (hi1 : klines.length - 10 ≤ i) (hi2 : i < klines.length)
    (hfind : findRecentBreakout klines i channel 5 = some info)
    (hUp : info.breakoutType = "UP")
    (hclose : (klines.getD i kline0).close < channel.upperLine - channel.deviation * 0.15) :
    checkRetest (klines.getD i kline0) channel symbol i klines =
      some ⟨symbol, (klines.getD i kline0).openTime / 1000, "RETEST_FAILED",
        (klines.getD i kline0).close, channel.upperLine, 0, 0.8, 0⟩ ∧
    (⟨symbol, (klines.getD i kline0).openTime / 1000, "RETEST_FAILED",
        (klines.getD i kline0).close, channel.upperLine, 0, 0.8,
        CalculateRSI ((klines.map Kline.close).take (i + 1)) 14⟩ : BreakoutSignal) ∈
      ta.DetectBreakouts klines symbol dev := by
  have hdevc : channel.deviation = dev := CalculateLinearRegressionChannel_deviation hch
  have htol : (0 : ℚ) ≤ channel.deviation * 0.15 := by
    rw [hdevc]
    positivity
  have hnot : ¬((klines.getD i kline0).low ≤ channel.upperLine + channel.deviation * 0.15 ∧
      channel.upperLine < (klines.getD i kline0).close) := by
    rintro ⟨_, hgt⟩
    linarith
  have hcr : checkRetest (klines.getD i kline0) channel symbol i klines =
      some ⟨symbol, (klines.getD i kline0).openTime / 1000, "RETEST_FAILED",
        (klines.getD i kline0).close, channel.upperLine, 0, 0.8, 0⟩ := by
    simp only [checkRetest, hfind]
    rw [if_pos hUp, if_neg hnot, if_pos hclose]
  refine ⟨hcr, ?_⟩
  rw [mem_DetectBreakouts hlen hch]
  exact ⟨i, ⟨hi1, hi2⟩, retest_mem_emitAt hcr rfl⟩

/-- The zero-width channel fitted on a flat window of 100s. -/
def chFlat100 : LinearRegressionChannel := ⟨100, 100, 100, 0, 0, false, false⟩

/-- Concrete 110-candle series: 100 flat candles at 100, an UP-breakout
close at 101, a drop to 99, then 8 flat candles. -/
def klDrop : List Kline :=
  List.replicate 100 (flatKline 100 1) ++
    [⟨0, 100, 101, 100, 101, 1, 0, true, false⟩,
     ⟨0, 100, 100, 99, 99, 1, 0, false, true⟩] ++
    List.replicate 8 (flatKline 100 1)

set_option maxRecDepth 10000 in
theorem C6_retest_failed_included_witness :
    checkRetest (klDrop.getD 101 kline0) chFlat100 ("X") 101 klDrop =
      some ⟨"X", (klDrop.getD 101 kline0).openTime / 1000, "RETEST_FAILED",
        (klDrop.getD 101 kline0).close, chFlat100.upperLine, 0, 0.8, 0⟩ ∧
    (⟨"X", (klDrop.getD 101 kline0).openTime / 1000, "RETEST_FAILED",
        (klDrop.getD 101 kline0).close, chFlat100.upperLine, 0, 0.8,
        CalculateRSI ((klDrop.map Kline.close).take (101 + 1)) 14⟩ : BreakoutSignal) ∈
      NewTechnicalAnalyzer.DetectBreakouts klDrop ("X") 0 :=
  C6_retest_failed_included NewTechnicalAnalyzer klDrop ("X") 0 chFlat100 101
    ⟨"UP", 101, 100, 100⟩ (by decide) (by decide) (le_refl 0) (by decide) (by decide)
    (by decide) (by decide) (by decide)

/-- C2: every retest event (RETEST_SUCCESS or RETEST_FAILED) in the output
of `DetectBreakouts` comes from a candle index `i` at which
`findRecentBreakout` located, among the 5 candles immediately preceding `i`,
a close passing the breakout margin test in the direction matching the
event's channel level; and a candle index whose 5 preceding candles contain
no margin-qualifying close yields no retest event at all (so a qualifying
close 6 or more candles back is never used). -/
theorem C2_retest_has_prior_breakout (ta : TechnicalAnalyzer) (klines : List Kline)
    (symbol : String) (dev : ℚ) (channel : LinearRegressionChannel)
    (hch : ta.CalculateLinearRegressionChannel
      ((klines.map Kline.close).take (klines.length - 10)) ta.length dev = some channel) :
    (∀ s ∈ ta.DetectBreakouts klines symbol dev,
      s.type = "RETEST_SUCCESS" ∨ s.type = "RETEST_FAILED" →
      ∃ i j, (klines.length - 10 ≤ i ∧ i < klines.length) ∧
        (∃ sig, checkRetest (klines.getD i kline0) channel symbol i klines = some sig ∧
          s = { sig with rsi := CalculateRSI ((klines.map Kline.close).take (i + 1)) 14 }) ∧
        i - 5 ≤ j ∧ j < i ∧
        ((channel.upperLine + channel.deviation * 0.1 < (klines.getD j kline0).close ∧
           s.channelLevel = channel.upperLine) ∨
         ((klines.getD j kline0).close < channel.lowerLine - channel.deviation * 0.1 ∧
           s.channelLevel = channel.lowerLine))) ∧
    (∀ i, (∀ j, i - 5 ≤ j → j < i →
        ¬(channel.upperLine + channel.deviation * 0.1 < (klines.getD j kline0).close) ∧
        ¬((klines.getD j kline0).close < channel.lowerLine - channel.deviation * 0.1)) →
      checkRetest (klines.getD i kline0) channel symbol i klines = none) := by
  constructor
  · intro s hs hty
    by_cases hlen : ta.length + 10 ≤ klines.length
    · rw [mem_DetectBreakouts hlen hch] at hs
      obtain ⟨i, hi, hmem⟩ := hs
      rcases emitAt_elim hmem with ⟨sig, hcb, _, rfl⟩ | ⟨sig, hcr, _, rfl⟩
      · exfalso
        have hty' : sig.type = "RETEST_SUCCESS" ∨ sig.type = "RETEST_FAILED" := by
          simpa using hty
        rcases (checkBreakout_elim hcb).1 with h2 | h2 <;> rcases hty' with h3 | h3 <;>
          rw [h2] at h3 <;> exact absurd h3 (by decide)
      · obtain ⟨info, hfind, hlevel, _⟩ := checkRetest_elim hcr
        obtain ⟨hj1, hj2, hmargin⟩ := findRecentBreakout_some hfind
        refine ⟨i, info.index, hi, ⟨sig, hcr, rfl⟩, hj1, hj2, ?_⟩
        rcases hmargin with ⟨hdir, hm, _⟩ | ⟨hdir, hm, _⟩
        · left
          refine ⟨hm, ?_⟩
          rcases hlevel with ⟨_, hl⟩ | ⟨hdir2, _⟩
          · simpa using hl
          · rw [hdir] at hdir2
            exact absurd hdir2 (by decide)
        · right
          refine ⟨hm, ?_⟩
          rcases hlevel with ⟨hdir2, _⟩ | ⟨_, hl⟩
          · rw [hdir] at hdir2
            exact absurd hdir2 (by decide)
          · simpa using hl
    · exfalso
      unfold DetectBreakouts at hs
      rw [if_pos (by omega)] at hs
      exact absurd hs (List.not_mem_nil s)
  · intro i hnone
    have hfr : findRecentBreakout klines i channel 5 = none :=
      findRecentBreakout_eq_none hnone
    simp [checkRetest, hfr]

/-- The RETEST_FAILED signal `DetectBreakouts` emits on `klDrop` at index
101 (its RSI there is 100/3). -/
def sigDropFail : BreakoutSignal := ⟨"X", 0, "RETEST_FAILED", 99, 100, 0, 4 / 5, 100 / 3⟩

set_option maxRecDepth 10000 in
theorem C2_retest_has_prior_breakout_witness :
    ∃ i j, (klDrop.length - 10 ≤ i ∧ i < klDrop.length) ∧
      (∃ sig, checkRetest (klDrop.getD i kline0) chFlat100 ("X") i klDrop = some sig ∧
        sigDropFail = { sig with rsi := CalculateRSI ((klDrop.map Kline.close).take (i + 1)) 14 }) ∧
      i - 5 ≤ j ∧ j < i ∧
      ((chFlat100.upperLine + chFlat100.deviation * 0.1 < (klDrop.getD j kline0).close ∧
         sigDropFail.channelLevel = chFlat100.upperLine) ∨
       ((klDrop.getD j kline0).close < chFlat100.lowerLine - chFlat100.deviation * 0.1 ∧
         sigDropFail.channelLevel = chFlat100.lowerLine)) :=
  (C2_retest_has_prior_breakout NewTechnicalAnalyzer klDrop ("X") 0 chFlat100 (by decide)).1
    sigDropFail (by decide) (Or.inr (by decide))

/-! Lemmas about constant (flat) price windows, for C9. -/

lemma enum_def {α : Type} (l : List α) : l.enum = List.enumFrom 0 l := rfl

lemma enumFrom_replicate_mul_sum (c : ℚ) : ∀ (n k : ℕ),
    ((List.enumFrom k (List.replicate n c)).map (fun p => (p.1 : ℚ) * p.2)).sum =
      c * ((List.enumFrom k (List.replicate n c)).map (fun p => ((p.1 : ℚ)))).sum := by
  intro n
  induction n with
  | zero =>
    intro k
    simp
  | succ n ih =>
    intro k
    simp only [List.replicate_succ, List.enumFrom_cons, List.map_cons, List.sum_cons, ih]
    ring

lemma enumFrom_replicate_resid (c : ℚ) : ∀ (n k : ℕ),
    ((List.enumFrom k (List.replicate n c)).map
      (fun p => (p.2 - (c + 0 * (p.1 : ℚ))) ^ 2)).sum = 0 := by
  intro n
  induction n with
  | zero =>
    intro k
    simp
  | succ n ih =>
    intro k
    simp only [List.replicate_succ, List.enumFrom_cons, List.map_cons, List.sum_cons, ih]
    ring

lemma linearRegression_replicate (n : ℕ) (hn : 0 < n) (c : ℚ) :
    linearRegression (List.replicate n c) = (0, c) := by
  have hn' : ((n : ℕ) : ℚ) ≠ 0 := Nat.cast_ne_zero.mpr hn.ne'
  simp only [linearRegression, enum_def, List.length_replicate, List.sum_replicate,
    nsmul_eq_mul]
  rw [enumFrom_replicate_mul_sum c n 0]
  generalize ((List.enumFrom 0 (List.replicate n c)).map (fun p => ((p.1 : ℚ)))).sum = S
  generalize ((List.enumFrom 0 (List.replicate n c)).map
    (fun p => (p.1 : ℚ) * (p.1 : ℚ))).sum = T
  have hz : (n : ℚ) * (c * S) - S * ((n : ℚ) * c) = 0 := by ring
  rw [hz, zero_div, zero_mul, sub_zero, mul_div_cancel_left₀ c hn']

lemma residSumSq_replicate (n : ℕ) (c : ℚ) :
    residSumSq (List.replicate n c) 0 c = 0 := by
  simp only [residSumSq, enum_def]
  exact enumFrom_replicate_resid c n 0

lemma IsDev_replicate {n : ℕ} (hn : 0 < n) {c dev : ℚ}
    (h : IsDev (List.replicate n c) n dev) : dev = 0 := by
  obtain ⟨_, hsq⟩ := h
  simp only [List.length_replicate, Nat.sub_self, List.drop_zero,
    linearRegression_replicate n hn c] at hsq
  rw [residSumSq_replicate, zero_div] at hsq
  exact sq_eq_zero_iff.mp hsq

lemma CalculateLinearRegressionChannel_replicate (ta : TechnicalAnalyzer) (n : ℕ)
    (hn : 0 < n) (c : ℚ) :
    ta.CalculateLinearRegressionChannel (List.replicate n c) n 0 =
      some ⟨c, c, c, 0, 0, false, false⟩ := by
  simp only [CalculateLinearRegressionChannel, List.length_replicate, Nat.sub_self,
    List.drop_zero, linearRegression_replicate n hn c]
  rw [if_neg (lt_irrefl n)]
  simp

lemma getD_replicate {α : Type} (n i : ℕ) (a d : α) (h : i < n) :
    (List.replicate n a).getD i d = a := by
  rw [List.getD_eq_getElem?_getD, List.getElem?_replicate_of_lt h]
  rfl

lemma emitAt_flat (c v : ℚ) (symbol : String) (i : ℕ) (hi : i < 110) :
    emitAt (List.replicate 110 (flatKline c v)) (List.replicate 110 c) symbol
      ⟨c, c, c, 0, 0, false, false⟩ i = [] := by
  have hk : (List.replicate 110 (flatKline c v)).getD i kline0 = flatKline c v :=
    getD_replicate _ _ _ _ hi
  have hcb : checkBreakout ((List.replicate 110 (flatKline c v)).getD i kline0)
      ⟨c, c, c, 0, 0, false, false⟩ symbol i (List.replicate 110 (flatKline c v)) = none := by
    rw [hk]
    simp [checkBreakout, flatKline]
  have hfr : findRecentBreakout (List.replicate 110 (flatKline c v)) i
      ⟨c, c, c, 0, 0, false, false⟩ 5 = none := by
    apply findRecentBreakout_eq_none
    intro j hj1 hj2
    have hkj : (List.replicate 110 (flatKline c v)).getD j kline0 = flatKline c v :=
      getD_replicate _ _ _ _ (by omega)
    rw [hkj]
    constructor
    · simp [flatKline]
    · simp [flatKline]
  have hcr : checkRetest ((List.replicate 110 (flatKline c v)).getD i kline0)
      ⟨c, c, c, 0, 0, false, false⟩ symbol i (List.replicate 110 (flatKline c v)) = none := by
    simp only [checkRetest, hfr]
  simp only [emitAt, hcb, hcr]
  rfl

/-- C9: for a fitting window of 100 identical closing prices the fitted
channel has slope 0 and deviation 0, so upper band, middle and lower band
all coincide with the constant price; and for a fully flat 110-candle series
(open = high = low = close constant) `DetectBreakouts` emits zero signals of
any kind — a close exactly equal to the band level is decided as no breakout
(strict inequality required). -/
theorem C9_flat_series (c dev : ℚ) (hdev : IsDev (List.replicate 100 c) 100 dev) :
    NewTechnicalAnalyzer.CalculateLinearRegressionChannel (List.replicate 100 c) 100 dev =
      some ⟨c, c, c, 0, 0, false, false⟩ ∧
    ∀ (v : ℚ) (symbol : String),
      NewTechnicalAnalyzer.DetectBreakouts (List.replicate 110 (flatKline c v)) symbol dev =
        [] := by
  have hdev0 : dev = 0 := IsDev_replicate (by norm_num) hdev
  subst hdev0
  constructor
  · exact CalculateLinearRegressionChannel_replicate NewTechnicalAnalyzer 100 (by norm_num) c
  · intro v symbol
    have hcl : (List.replicate 110 (flatKline c v)).map Kline.close =
        List.replicate 110 c := by
      rw [List.map_replicate]
      rfl
    have hlen : NewTechnicalAnalyzer.length + 10 ≤
        (List.replicate 110 (flatKline c v)).length := by
      rw [List.length_replicate]
      norm_num [NewTechnicalAnalyzer]
    have htake : ((List.replicate 110 (flatKline c v)).map Kline.close).take
        ((List.replicate 110 (flatKline c v)).length - 10) = List.replicate 100 c := by
      rw [hcl, List.length_replicate, List.take_replicate]
      norm_num
    have hch : NewTechnicalAnalyzer.CalculateLinearRegressionChannel
        (((List.replicate 110 (flatKline c v)).map Kline.close).take
          ((List.replicate 110 (flatKline c v)).length - 10)) NewTechnicalAnalyzer.length 0 =
        some ⟨c, c, c, 0, 0, false, false⟩ := by
      rw [htake]
      exact CalculateLinearRegressionChannel_replicate NewTechnicalAnalyzer 100 (by norm_num) c
    rw [List.eq_nil_iff_forall_not_mem]
    intro s hs
    rw [mem_DetectBreakouts hlen hch] at hs
    obtain ⟨i, hi, hmem⟩ := hs
    rw [hcl] at hmem
    rw [emitAt_flat c v symbol i (by simpa [List.length_replicate] using hi.2)] at hmem
    exact absurd hmem (List.not_mem_nil s)

set_option maxRecDepth 10000 in
theorem C9_flat_series_witness :
    NewTechnicalAnalyzer.CalculateLinearRegressionChannel (List.replicate 100 (100 : ℚ)) 100 0 =
      some ⟨100, 100, 100, 0, 0, false, false⟩ ∧
    NewTechnicalAnalyzer.DetectBreakouts (List.replicate 110 (flatKline 100 1)) ("X") 0 = [] :=
  ⟨(C9_flat_series 100 0 ⟨le_refl 0, by decide⟩).1,
    (C9_flat_series 100 0 ⟨le_refl 0, by decide⟩).2 1 ("X")⟩

end TechnicalAnalyzer
